import Mathlib

/-!
Verification development for the crawler module of a Rust web-crawling
service (src/backend/src/crawler/mod.rs).

Modelling conventions used throughout this file:

* Rust `String` / `&str` page content is modelled as a list of UTF-8 bytes
  (`ByteStr := List Nat`): the crawler indexes page text with *byte*
  indices, and Rust slicing panics off character boundaries, so the byte
  level is the faithful one.  Short non-content strings (URLs, meta
  attribute values, error text) are modelled as Lean `String`.
* `str::to_lowercase` is modelled by its ASCII case mapping
  (`rustLower`), which leaves every non-ASCII byte unchanged.  This is
  exact for inputs whose cased characters are ASCII (all inputs appearing
  in theorems below); the full Unicode table is out of scope.
* `str::trim` is modelled as trimming ASCII whitespace.
* `f32` arithmetic in the relevance score is modelled over `ℚ` (exact
  arithmetic); every operation involved (`*`, `/`, `+`, `min`) is
  monotone under IEEE round-to-nearest, so the ordering facts proved here
  are preserved by the f32 evaluation.  Division of a positive numerator
  by `0.0` yields `f32::INFINITY`, which `min(_, 100.0)` caps to `100.0`;
  the model returns `100` directly in that case.
* Library capabilities with no algorithmic content in this repository
  (HTTP fetch, the `scraper` HTML parser and selector engine, `html2text`
  cleaning, `Url` parsing/joining, clocks) are abstracted into an `Env`
  record; the repository's own logic over those capabilities is embedded
  verbatim.
* `Instant::elapsed() > limit` readings are modelled by an oracle
  `Nat → Bool` consulted at exactly the program points where the Rust
  code reads the clock, with a tick counter threaded through the state.
-/

deriving instance DecidableEq for Except

/-- Rust string contents as a list of UTF-8 byte values. -/
abbrev ByteStr : Type := List Nat

/-- Byte values of an ASCII Lean string literal (only applied to ASCII literals,
where the UTF-8 bytes coincide with the character codes). -/
def asciiBytes (s : String) : ByteStr := s.data.map Char.toNat

/-- Rust `str::is_char_boundary`: true at the total length and at any index
holding a byte that is not a UTF-8 continuation byte; false past the end. -/
def isCharBoundaryB (s : ByteStr) (i : Nat) : Bool :=
  if i = List.length s then true
  else
    match List.get? s i with
    | some b => decide (b < 128 ∨ 192 ≤ b)
    | none => false

/-- Rust string slicing `&s[a..b]`: `none` models the panic taken when the
bounds are out of order, out of range, or off a character boundary. -/
def rustSlice (s : ByteStr) (a b : Nat) : Option ByteStr :=
  if a ≤ b ∧ isCharBoundaryB s a ∧ isCharBoundaryB s b then
    some (List.take (b - a) (List.drop a s))
  else none

/-- ASCII case mapping of one byte (model of Unicode lowercasing restricted
to ASCII; non-ASCII bytes pass through unchanged). -/
def lowerByte (b : Nat) : Nat := if 65 ≤ b ∧ b ≤ 90 then b + 32 else b

/-- Model of Rust `str::to_lowercase` (ASCII case mapping, see header). -/
def rustLower (s : ByteStr) : ByteStr := List.map lowerByte s

/-- ASCII whitespace test (model of the whitespace class used by `str::trim`). -/
def isWsByte (b : Nat) : Bool := b = 32 ∨ b = 9 ∨ b = 10 ∨ b = 13 ∨ b = 11 ∨ b = 12

/-- Model of Rust `str::trim`. -/
def rustTrim (s : ByteStr) : ByteStr :=
  List.reverse (List.dropWhile isWsByte (List.reverse (List.dropWhile isWsByte s)))

/-- The char-boundary positions of a byte string, in increasing order.
Rust substring search with an empty pattern matches at every one of these. -/
def charBoundaries (s : ByteStr) : List Nat :=
  List.filter (isCharBoundaryB s) (List.range (List.length s + 1))

/-- Left-to-right non-overlapping scan for a nonempty pattern, recording the
byte index of each match; mirrors Rust pattern search semantics (on valid
UTF-8 a byte-level occurrence is automatically boundary-aligned).  After a
match of length L the next L-1 positions are skipped, which realises the
non-overlapping advance by L. -/
def scanMatchIndices (pat : ByteStr) : ByteStr → Nat → Nat → List Nat
  | [], _, _ => []
  | _ :: tl, i, skip + 1 => scanMatchIndices pat tl (i + 1) skip
  | a :: tl, i, 0 =>
    if List.isPrefixOf pat (a :: tl) ∧ pat ≠ [] then
      i :: scanMatchIndices pat tl (i + 1) (List.length pat - 1)
    else
      scanMatchIndices pat tl (i + 1) 0

/-- Model of Rust `str::match_indices(pat).map(|(i, _)| i)` (and of the index
set traversed by `str::matches(pat)`). -/
def rustMatchIndices (s pat : ByteStr) : List Nat :=
  if pat = [] then charBoundaries s else scanMatchIndices pat s 0 0

/-- Model of Rust `str::matches(pat).count()`. -/
def rustCountMatches (s pat : ByteStr) : Nat := List.length (rustMatchIndices s pat)

/-- Model of Rust `str::contains(pat)`. -/
def rustContains (hay pat : ByteStr) : Bool :=
  List.any (List.range (List.length hay + 1)) (fun p => List.isPrefixOf pat (List.drop p hay))

/-- Model of `Vec<String>::join(sep)`. -/
def joinSep (parts : List ByteStr) (sep : ByteStr) : ByteStr :=
  List.foldr (fun a b => List.append a b) [] (List.intersperse sep parts)

/-- The sentinel context recorded when the time budget fires mid occurrence scan
(the Rust literal is the string below). -/
def sentinelBytes : ByteStr := asciiBytes "Time limit reached during processing"

/-- Separator placed between successive contexts of one keyword. -/
def dotsSepBytes : ByteStr := asciiBytes "\n...\n"

/-- Separator placed between successive pages of accumulated content. -/
def pageSepBytes : ByteStr := asciiBytes "\n\n--- Next Page ---\n\n"

/-- Model of `chrono::NaiveDate` (a calendar date; the derived chronological
order on valid dates is the lexicographic order on year, month, day). -/
structure NDate where
  y : Int
  m : Nat
  d : Nat
deriving DecidableEq, Repr

/-- Chronological order on dates (model of the `NaiveDate` `Ord`). -/
def dateLeB (a b : NDate) : Bool :=
  decide (a.y < b.y ∨ (a.y = b.y ∧ (a.m < b.m ∨ (a.m = b.m ∧ a.d ≤ b.d))))

/-- Gregorian leap-year test. -/
def isLeap (y : Int) : Bool := y % 4 = 0 ∧ (y % 100 ≠ 0 ∨ y % 400 = 0)

/-- Number of days of a month. -/
def daysInMonth (y : Int) (m : Nat) : Nat :=
  if m = 2 then (if isLeap y then 29 else 28)
  else if m = 4 ∨ m = 6 ∨ m = 9 ∨ m = 11 then 30
  else 31

/-- Model of `NaiveDate::from_ymd_opt`: validates the field ranges. -/
def mkDate (y : Int) (m d : Nat) : Option NDate :=
  if 1 ≤ m ∧ m ≤ 12 ∧ 1 ≤ d ∧ d ≤ daysInMonth y m then some ⟨y, m, d⟩ else none

/-- Read up to `mx` leading decimal digits, returning the value, the number of
digits consumed and the remaining characters. -/
def readDigitsAux : Nat → List Char → Nat → Nat → Nat × Nat × List Char
  | 0, rest, acc, n => (acc, n, rest)
  | _ + 1, [], acc, n => (acc, n, [])
  | mx + 1, c :: tl, acc, n =>
    if c.isDigit then readDigitsAux mx tl (acc * 10 + (c.toNat - 48)) (n + 1)
    else (acc, n, c :: tl)

/-- Greedy digit run of length 1..mx (model of chrono numeric scanning). -/
def readDigits (mx : Nat) (s : List Char) : Option (Nat × List Char) :=
  match readDigitsAux mx s 0 0 with
  | (v, n, rest) => if n = 0 then none else some (v, rest)

/-- Digit run of exactly `k` digits (RFC 3339 fixed-width fields). -/
def readFixed (k : Nat) (s : List Char) : Option (Nat × List Char) :=
  match readDigitsAux k s 0 0 with
  | (v, n, rest) => if n = k then some (v, rest) else none

/-- Consume a possibly-empty run of digits (RFC 3339 fractional seconds). -/
def dropDigits : List Char → List Char
  | [] => []
  | c :: tl => if c.isDigit then dropDigits tl else c :: tl

/-- Model of `NaiveDate::parse_from_str(s, "%Y<sep>%m<sep>%d")` for a one-char
separator: signed 1-4 digit year, 1-2 digit month and day, full input must be
consumed, and the field ranges are validated. -/
def parse_ymd (sep : Char) (s : String) : Option NDate :=
  let cs := s.data
  let signed : Int × List Char :=
    match cs with
    | c :: tl => if c = '+' then (1, tl) else if c = '-' then (-1, tl) else (1, cs)
    | [] => (1, [])
  match readDigits 4 signed.2 with
  | none => none
  | some (y, r1) =>
    match r1 with
    | c1 :: r2 =>
      if c1 = sep then
        match readDigits 2 r2 with
        | none => none
        | some (m, r3) =>
          match r3 with
          | c2 :: r4 =>
            if c2 = sep then
              match readDigits 2 r4 with
              | none => none
              | some (d, r5) => if r5 = [] then mkDate (signed.1 * y) m d else none
            else none
          | [] => none
      else none
    | [] => none

/-- Model of `DateTime::parse_from_rfc3339(s).map(|dt| dt.date_naive())`:
a full RFC 3339 timestamp is required (date, `T`/`t`/space separator, time,
optional fractional seconds, `Z`/`z` or a numeric offset); the date part as
written is returned. -/
def parse_rfc3339 (s : String) : Option NDate :=
  match readFixed 4 s.data with
  | none => none
  | some (y, r1) =>
    match r1 with
    | '-' :: r2 =>
      match readFixed 2 r2 with
      | none => none
      | some (mo, r3) =>
        match r3 with
        | '-' :: r4 =>
          match readFixed 2 r4 with
          | none => none
          | some (d, r5) =>
            match r5 with
            | tsep :: r6 =>
              if tsep = 'T' ∨ tsep = 't' ∨ tsep = ' ' then
                match readFixed 2 r6 with
                | none => none
                | some (h, r7) =>
                  match r7 with
                  | ':' :: r8 =>
                    match readFixed 2 r8 with
                    | none => none
                    | some (mi, r9) =>
                      match r9 with
                      | ':' :: r10 =>
                        match readFixed 2 r10 with
                        | none => none
                        | some (sec, r11) =>
                          let r12 :=
                            match r11 with
                            | '.' :: f1 :: frest =>
                              if f1.isDigit then some (dropDigits frest) else none
                            | other => some other
                          match r12 with
                          | none => none
                          | some r13 =>
                            let offOk : Option Unit :=
                              match r13 with
                              | ['Z'] => some ()
                              | ['z'] => some ()
                              | oc :: orest =>
                                if oc = '+' ∨ oc = '-' then
                                  match readFixed 2 orest with
                                  | none => none
                                  | some (oh, o1) =>
                                    match o1 with
                                    | ':' :: o2 =>
                                      match readFixed 2 o2 with
                                      | none => none
                                      | some (om, o3) =>
                                        if o3 = [] ∧ oh ≤ 23 ∧ om ≤ 59 then some () else none
                                    | _ => none
                                else none
                              | [] => none
                            match offOk with
                            | none => none
                            | some _ =>
                              if h ≤ 23 ∧ mi ≤ 59 ∧ sec ≤ 60 then mkDate (Int.ofNat y) mo d
                              else none
                      | _ => none
                  | _ => none
              else none
            | [] => none
        | _ => none
    | _ => none

/-- The page-date parse chain of `matches_date_filter` (crawler/mod.rs lines
118-122): RFC 3339 first, then `%Y-%m-%d`, then `%Y/%m/%d`; first success
wins.  No other format is tried. -/
def parse_page_date (s : String) : Option NDate :=
  match parse_rfc3339 s with
  | some d => some d
  | none =>
    match parse_ymd '-' s with
    | some d => some d
    | none => parse_ymd '/' s

/-- The crawler error enumeration (`CrawlerError`). -/
inductive CrawlerError where
  | requestError (msg : String)
  | urlError (msg : String)
  | selectorError (msg : String)
  | timeoutError
  | dateParsingError (msg : String)
  | other (msg : String)
deriving DecidableEq, Repr

/-- Model of `parse_date_string`: request-bound dates accept `%Y-%m-%d` only. -/
def parse_date_string (s : String) : Except CrawlerError NDate :=
  match parse_ymd '-' s with
  | some d => Except.ok d
  | none => Except.error (CrawlerError.dateParsingError s)

/-- Model of `validate_date_range`: parses both bounds when present and fails
when `from > to`. -/
def validate_date_range (date_from date_to : Option String) :
    Except CrawlerError (Option NDate × Option NDate) :=
  match (match date_from with
         | some fs =>
           match parse_date_string fs with
           | Except.ok d => Except.ok (some d)
           | Except.error e => Except.error e
         | none => Except.ok none : Except CrawlerError (Option NDate)) with
  | Except.error e => Except.error e
  | Except.ok fd =>
    match (match date_to with
           | some ts =>
             match parse_date_string ts with
             | Except.ok d => Except.ok (some d)
             | Except.error e => Except.error e
           | none => Except.ok none : Except CrawlerError (Option NDate)) with
    | Except.error e => Except.error e
    | Except.ok td =>
      match fd, td with
      | some f, some t =>
        if dateLeB f t then Except.ok (some f, some t)
        else Except.error (CrawlerError.dateParsingError "date_from cannot be after date_to")
      | _, _ => Except.ok (fd, td)

/-- The parseable candidate dates of a page, in the order the code builds them
(`[last_modified, published_date]` filtered through the parse chain). -/
def pageParsedDates (last_modified published_date : Option String) : List NDate :=
  List.filterMap (fun o => Option.bind o parse_page_date) [last_modified, published_date]

/-- Whether a date lies within the optional bounds (open on an absent bound). -/
def withinBounds (date_from date_to : Option NDate) (d : NDate) : Bool :=
  (match date_from with | some f => dateLeB f d | none => true) &&
  (match date_to with | some t => dateLeB d t | none => true)

/-- Model of `matches_date_filter` (crawler/mod.rs lines 101-138). -/
def matches_date_filter (last_modified published_date : Option String)
    (date_from date_to : Option NDate) : Bool :=
  if date_from = none ∧ date_to = none then true
  else
    let pds := pageParsedDates last_modified published_date
    if pds = [] then true
    else List.any pds (withinBounds date_from date_to)

/-- One `<meta>` element as seen by `extract_page_dates`: its `property`,
`name` and `content` attributes. -/
structure MetaTag where
  property : Option String
  name : Option String
  content : Option String
deriving DecidableEq, Repr

/-- A parsed HTML document abstracted to exactly what the crawler selects
from it: the `<meta>` elements in document order, the `datetime` attributes
of `time[datetime]` elements in document order, and the `inner_html` of the
first `<title>` element. -/
structure Doc where
  metas : List MetaTag
  times : List String
  titleInner : Option String
deriving DecidableEq, Repr

/-- One iteration of the meta-tag loop of `extract_page_dates` (crawler/mod.rs
lines 51-83): the `property` attribute is examined first, then `name`; each hit
with a present `content` assigns the category unconditionally. -/
def metaStep (acc : Option String × Option String) (mt : MetaTag) :
    Option String × Option String :=
  let acc1 :=
    match mt.property with
    | some p =>
      if p = "article:modified_time" ∨ p = "article:updated_time" then
        match mt.content with
        | some c => (some c, acc.2)
        | none => acc
      else if p = "article:published_time" then
        match mt.content with
        | some c => (acc.1, some c)
        | none => acc
      else acc
    | none => acc
  match mt.name with
  | some n =>
    if n = "last-modified" ∨ n = "date-modified" then
      match mt.content with
      | some c => (some c, acc1.2)
      | none => acc1
    else if n = "date" ∨ n = "publish-date" ∨ n = "publication-date" then
      match mt.content with
      | some c => (acc1.1, some c)
      | none => acc1
    else acc1
  | none => acc1

/-- One iteration of the `time[datetime]` loop of `extract_page_dates` (lines
87-95): the datetime value is taken only when no published date is set yet. -/
def timeStep (pd : Option String) (t : String) : Option String :=
  if pd.isNone then some t else pd

/-- Model of `extract_page_dates` (crawler/mod.rs lines 45-98). -/
def extract_page_dates (doc : Doc) : Option String × Option String :=
  let p := List.foldl metaStep (none, none) doc.metas
  (p.1, List.foldl timeStep p.2 doc.times)

/-- The (last-modified, published) values the `property` attribute of one meta
tag contributes. -/
def metaPropertyVals (mt : MetaTag) : List String × List String :=
  match mt.property with
  | some p =>
    if p = "article:modified_time" ∨ p = "article:updated_time" then (Option.toList mt.content, [])
    else if p = "article:published_time" then ([], Option.toList mt.content)
    else ([], [])
  | none => ([], [])

/-- The (last-modified, published) values the `name` attribute of one meta tag
contributes. -/
def metaNameVals (mt : MetaTag) : List String × List String :=
  match mt.name with
  | some n =>
    if n = "last-modified" ∨ n = "date-modified" then (Option.toList mt.content, [])
    else if n = "date" ∨ n = "publish-date" ∨ n = "publication-date" then
      ([], Option.toList mt.content)
    else ([], [])
  | none => ([], [])

/-- The last-modified values one meta tag contributes, in assignment order
(property attribute first, then name attribute). -/
def metaModifiedVals (mt : MetaTag) : List String :=
  (metaPropertyVals mt).1 ++ (metaNameVals mt).1

/-- The published values one meta tag contributes, in assignment order. -/
def metaPublishedVals (mt : MetaTag) : List String :=
  (metaPropertyVals mt).2 ++ (metaNameVals mt).2

/-- The last element of a list when it has one, else a default option. -/
def backOr (d : Option String) (l : List String) : Option String :=
  List.foldl (fun _ v => some v) d l

/-- Model of `calculate_relevance_score` (crawler/mod.rs lines 160-184) over
exact rationals.  `none` models the panic taken when the first-third slice of
the lowercased context misses a char boundary; a positive occurrence count
over an empty context produces f32 infinity, capped by `min` to `100`. -/
def calculate_relevance_score (keyword context : ByteStr) : Option ℚ :=
  let contextLower := rustLower context
  let keywordLower := rustLower keyword
  let count := rustCountMatches contextLower keywordLower
  if count = 0 then some 0
  else
    let firstThirdLen := List.length context / 3
    match rustSlice contextLower 0 (min firstThirdLen (List.length contextLower)) with
    | none => none
    | some firstThird =>
      let positionBoost : ℚ := if rustContains firstThird keywordLower then 3 / 10 else 0
      if List.length context = 0 then some 100
      else
        let density : ℚ := ((count : ℚ) * 100) / (List.length context : ℚ)
        some (min ((density * (7 / 10) + positionBoost) * 10) 100)

/-- `KeywordMatch` (crawler/mod.rs lines 236-244).  The relevance score is the
exact-rational model of the `f32` field. -/
structure KeywordMatch where
  keyword : ByteStr
  context : ByteStr
  cleaned_text : ByteStr
  count : Nat
  relevance_score : Option ℚ
  source_url : String
deriving DecidableEq, Repr

/-- `CrawlMetadata` (lines 227-234); the two timestamp-like fields are kept as
naturals (the Rust code formats them into strings). -/
structure CrawlMetadata where
  crawl_timestamp : Nat
  total_processing_time_ms : Nat
  content_summary : Option String
  last_modified : Option String
  published_date : Option String
deriving DecidableEq, Repr

/-- `DomainResult` (lines 215-225); the error field keeps the structured error
(the Rust code stores its display string), and the Rust field `matches` is
called `matchesList` because `matches` is a reserved token in Lean. -/
structure DomainResult where
  url : String
  title : Option String
  content : ByteStr
  matchesList : List KeywordMatch
  pages_crawled : Nat
  has_more_pages : Bool
  metadata : Option CrawlMetadata
  error : Option CrawlerError
deriving DecidableEq, Repr

/-- `CrawlResult` (lines 207-213). -/
structure CrawlResult where
  results : List DomainResult
  total_pages_crawled : Nat
  total_processing_time_ms : Nat
  crawl_timestamp : Nat
deriving DecidableEq, Repr

/-- `CrawlRequest` (lines 246-256); keywords are page-content strings and so
byte strings. -/
structure CrawlRequest where
  url : String
  keywords : List ByteStr
  max_depth : Option Nat
  max_time_seconds : Option Nat
  follow_pagination : Option Bool
  max_pages : Option Nat
  date_from : Option String
  date_to : Option String

/-- Outcome of a Rust computation that can also panic. -/
inductive POut (α : Type) where
  | ok (a : α)
  | err (e : CrawlerError)
  | panic
deriving DecidableEq, Repr

/-- Extract the ok value of a `POut`. -/
def POut.getOk {α : Type} : POut α → Option α
  | .ok a => some a
  | _ => none

/-- The external capabilities the crawler consumes (see the file header):
HTTP fetch, HTML parsing/selection, next-link probing with URL resolution,
html2text cleaning, URL parsing, and clock readings. -/
structure Env where
  fetch : String → Except String ByteStr
  parse_document : ByteStr → Doc
  find_next_page_url : Doc → String → Option String
  clean_html_text : ByteStr → ByteStr
  parse_url : String → Option String
  oracle : Nat → Bool
  timestamp : Nat
  elapsed_ms : Nat

/-- The `KeywordMatch` pushed when the time budget fires mid occurrence scan
(crawler/mod.rs lines 532-543). -/
def sentinelMatch (env : Env) (kw : ByteStr) (count : Nat) (url : String) : KeywordMatch :=
  { keyword := kw
    context := sentinelBytes
    cleaned_text := env.clean_html_text sentinelBytes
    count := count
    relevance_score := some 0
    source_url := url }

/-- Result of the per-occurrence context scan. -/
inductive ScanOut where
  | ok (ctxs : List ByteStr) (tick : Nat)
  | timedOut (tick : Nat)
  | panicked
deriving DecidableEq, Repr

/-- The loop over keyword occurrences (crawler/mod.rs lines 528-558): a clock
reading before each occurrence, then the 50-byte context window is sliced out
of the *original* content at indices taken from the lowercased content. -/
def scanOccurrences (env : Env) (hasLimit : Bool) (html : ByteStr) (kwLen : Nat) :
    List Nat → List ByteStr → Nat → ScanOut
  | [], acc, t => ScanOut.ok acc t
  | i :: rest, acc, t =>
    let checked : Bool × Nat := if hasLimit then (env.oracle t, t + 1) else (false, t)
    if checked.1 then ScanOut.timedOut checked.2
    else
      let start := if 50 < i then i - 50 else 0
      let stop := if i + kwLen + 50 < List.length html then i + kwLen + 50 else List.length html
      match rustSlice html start stop with
      | none => ScanOut.panicked
      | some ctx => scanOccurrences env hasLimit html kwLen rest (acc ++ [ctx]) checked.2

/-- Processing of one keyword (crawler/mod.rs lines 514-579): clock reading,
trim+lowercase, occurrence count, context scan, scoring, and the push of the
resulting `KeywordMatch` (or of the sentinel on a mid-scan timeout). -/
def processOneKeyword (env : Env) (hasLimit : Bool) (html htmlLower : ByteStr)
    (url : String) (kw : ByteStr) (ms : List KeywordMatch) (t : Nat) :
    List KeywordMatch × Nat × POut Unit :=
  let checked : Bool × Nat := if hasLimit then (env.oracle t, t + 1) else (false, t)
  if checked.1 then (ms, checked.2, POut.err CrawlerError.timeoutError)
  else
    let kwLower := rustLower (rustTrim kw)
    let idxs := rustMatchIndices htmlLower kwLower
    if List.length idxs = 0 then (ms, checked.2, POut.ok ())
    else
      match scanOccurrences env hasLimit html (List.length kw) idxs [] checked.2 with
      | ScanOut.panicked => (ms, checked.2, POut.panic)
      | ScanOut.timedOut t2 =>
        (ms ++ [sentinelMatch env kw (List.length idxs) url], t2, POut.err CrawlerError.timeoutError)
      | ScanOut.ok ctxs t2 =>
        let context := if ctxs ≠ [] then joinSep ctxs dotsSepBytes else []
        let cleaned := env.clean_html_text context
        match calculate_relevance_score kw context with
        | none => (ms, t2, POut.panic)
        | some score =>
          (ms ++ [{ keyword := kw, context := context, cleaned_text := cleaned,
                    count := List.length idxs, relevance_score := some score,
                    source_url := url }], t2, POut.ok ())

/-- The keyword loop of `process_page_content`. -/
def processKeywords (env : Env) (hasLimit : Bool) (html htmlLower : ByteStr) (url : String) :
    List ByteStr → List KeywordMatch → Nat → List KeywordMatch × Nat × POut Unit
  | [], ms, t => (ms, t, POut.ok ())
  | kw :: rest, ms, t =>
    match processOneKeyword env hasLimit html htmlLower url kw ms t with
    | (ms1, t1, POut.ok _) => processKeywords env hasLimit html htmlLower url rest ms1 t1
    | (ms1, t1, POut.err e) => (ms1, t1, POut.err e)
    | (ms1, t1, POut.panic) => (ms1, t1, POut.panic)

/-- Model of `process_page_content` (crawler/mod.rs lines 496-583).  Returns
the updated accumulated matches (the `&mut Vec` argument), the clock tick, and
the title the function computes for a first page (its return value, which the
caller ignores). -/
def process_page_content (env : Env) (hasLimit : Bool) (html : ByteStr)
    (keywords : List ByteStr) (ms0 : List KeywordMatch) (t0 : Nat) (url : String) :
    List KeywordMatch × Nat × POut (Option String) :=
  let htmlLower := rustLower html
  let title := if ms0.isEmpty then (env.parse_document html).titleInner else none
  match processKeywords env hasLimit html htmlLower url keywords ms0 t0 with
  | (ms, t, POut.ok _) => (ms, t, POut.ok title)
  | (ms, t, POut.err e) => (ms, t, POut.err e)
  | (ms, t, POut.panic) => (ms, t, POut.panic)

/-- The per-domain configuration `crawl_single_domain` computes before its
loop: whether a time limit exists, the page cap (`max_pages.unwrap_or(10)`),
the pagination flag (`follow_pagination.unwrap_or(false)`), the keywords and
the validated date bounds. -/
structure LoopCfg where
  has_limit : Bool
  max_pages : Nat
  follow_pag : Bool
  keywords : List ByteStr
  date_from : Option NDate
  date_to : Option NDate

/-- The mutable state of the `crawl_single_domain` loop (crawler/mod.rs lines
359-371), plus the clock tick counter. -/
structure LoopState where
  visited : List String
  all_matches : List KeywordMatch
  pages_crawled : Nat
  has_more_pages : Bool
  current_url : String
  page_title : Option String
  full_content : ByteStr
  tick : Nat
deriving DecidableEq, Repr

/-- What one iteration of the crawl loop does: continue with a new state,
break with a final state, abort the domain with an error, or panic. -/
inductive StepRes where
  | next (st : LoopState)
  | done (st : LoopState)
  | fail (e : CrawlerError)
  | panicked
deriving DecidableEq, Repr

/-- The pagination decision at the bottom of both loop branches (crawler/mod.rs
lines 403-419 and 440-457): stop when pagination is disabled, when no next
link is found, or when the next link was already visited; otherwise mark it
visited and continue there. -/
def paginateStep (env : Env) (cfg : LoopCfg) (doc : Doc) (st : LoopState) : StepRes :=
  if cfg.follow_pag = false then StepRes.done st
  else
    match env.find_next_page_url doc st.current_url with
    | some nu =>
      if List.contains st.visited nu then StepRes.done st
      else StepRes.next { st with visited := nu :: st.visited, current_url := nu }
    | none => StepRes.done st

/-- The title capture of crawler/mod.rs lines 422-426: the title is
(re)assigned from the current document whenever the accumulated match list is
still empty.  The code's `Selector::parse("title")?` cannot fail on this fixed
valid selector string, so no error case is modelled for it. -/
def titledState (doc : Doc) (st : LoopState) : LoopState :=
  if st.all_matches.isEmpty then { st with page_title := doc.titleInner } else st

/-- The processed-page branch of the loop body (crawler/mod.rs lines 428-438)
applied to the state after title capture: keyword processing, content
accumulation with the page separator, and the page-count increment, followed
by the pagination decision. -/
def processedCore (env : Env) (cfg : LoopCfg) (doc : Doc) (html : ByteStr)
    (st1 : LoopState) : StepRes :=
  match process_page_content env cfg.has_limit html cfg.keywords st1.all_matches st1.tick
      st1.current_url with
  | (_, _, POut.err e) => StepRes.fail e
  | (_, _, POut.panic) => StepRes.panicked
  | (ms, t2, POut.ok _) =>
    paginateStep env cfg doc
      { st1 with
          all_matches := ms, tick := t2,
          full_content := st1.full_content ++
            (if st1.full_content.isEmpty then [] else pageSepBytes) ++ env.clean_html_text html,
          pages_crawled := st1.pages_crawled + 1 }

/-- The body of one loop iteration after the budget checks (crawler/mod.rs
lines 388-457): fetch, parse, date extraction and filtering, then either the
processed-page branch or the skip branch (which still counts the page). -/
def crawlStepFetch (env : Env) (cfg : LoopCfg) (st : LoopState) : StepRes :=
  match env.fetch st.current_url with
  | Except.error msg => StepRes.fail (CrawlerError.requestError msg)
  | Except.ok html =>
    if matches_date_filter (extract_page_dates (env.parse_document html)).1
        (extract_page_dates (env.parse_document html)).2 cfg.date_from cfg.date_to then
      processedCore env cfg (env.parse_document html) html
        (titledState (env.parse_document html) st)
    else
      paginateStep env cfg (env.parse_document html)
        { st with pages_crawled := st.pages_crawled + 1 }

/-- The page-budget check at the top of the loop (lines 383-386). -/
def crawlStepPages (env : Env) (cfg : LoopCfg) (st : LoopState) : StepRes :=
  if cfg.max_pages ≤ st.pages_crawled then StepRes.done { st with has_more_pages := true }
  else crawlStepFetch env cfg st

/-- One full iteration of the crawl loop: the time check (lines 375-380, taken
only when a limit is configured), then the page check, then the body. -/
def crawlStep (env : Env) (cfg : LoopCfg) (st : LoopState) : StepRes :=
  if cfg.has_limit then
    if env.oracle st.tick then
      StepRes.done { st with tick := st.tick + 1, has_more_pages := true }
    else crawlStepPages env cfg { st with tick := st.tick + 1 }
  else crawlStepPages env cfg st

/-- A terminated crawl loop: a final state, a domain error, or a panic. -/
inductive LoopOut where
  | finished (st : LoopState)
  | failed (e : CrawlerError)
  | panicked
deriving DecidableEq, Repr

/-- The crawl loop, iterated under explicit fuel; `none` means the fuel ran
out.  Fuel `cfg.max_pages + 1` is always sufficient (proved below): every
continuing iteration increments `pages_crawled` and the loop breaks once the
counter reaches the cap. -/
def crawlLoopF (env : Env) (cfg : LoopCfg) : Nat → LoopState → Option LoopOut
  | 0, _ => none
  | fuel + 1, st =>
    match crawlStep env cfg st with
    | StepRes.done s => some (LoopOut.finished s)
    | StepRes.fail e => some (LoopOut.failed e)
    | StepRes.panicked => some LoopOut.panicked
    | StepRes.next s => crawlLoopF env cfg fuel s

/-- The `LoopCfg` derived from a request (crawler/mod.rs lines 356, 371, 404,
441). -/
def cfgOfRequest (req : CrawlRequest) (df dt : Option NDate) : LoopCfg :=
  { has_limit := req.max_time_seconds.isSome
    max_pages := req.max_pages.getD 10
    follow_pag := req.follow_pagination.getD false
    keywords := req.keywords
    date_from := df
    date_to := dt }

/-- The initial loop state (lines 359-368): the seed URL is pre-inserted into
the visited set. -/
def initState (base_url : String) : LoopState :=
  { visited := [base_url], all_matches := [], pages_crawled := 0, has_more_pages := false,
    current_url := base_url, page_title := none, full_content := [], tick := 0 }

/-- Model of `crawl_single_domain` (crawler/mod.rs lines 345-494).  The fuel
`max_pages + 1` never runs out (see `crawlLoopF_total`); the `none` arm is
unreachable.  In the metadata, `last_modified` and `published_date` are the
literal `(None, None)` of lines 467-474. -/
def crawl_single_domain (env : Env) (req : CrawlRequest) (base_url : String)
    (df dt : Option NDate) : POut DomainResult :=
  let cfg := cfgOfRequest req df dt
  match crawlLoopF env cfg (cfg.max_pages + 1) (initState base_url) with
  | none => POut.err (CrawlerError.other "unreachable: fuel exhausted")
  | some (LoopOut.failed e) => POut.err e
  | some LoopOut.panicked => POut.panic
  | some (LoopOut.finished s) =>
    POut.ok
      { url := base_url, title := s.page_title, content := s.full_content,
        matchesList := s.all_matches, pages_crawled := s.pages_crawled,
        has_more_pages := s.has_more_pages,
        metadata := some
          { crawl_timestamp := env.timestamp, total_processing_time_ms := env.elapsed_ms,
            content_summary := s.page_title, last_modified := none, published_date := none },
        error := none }

/-- The error placeholder a failed domain is converted into (crawler/mod.rs
lines 316-325): only `url` and `error` are populated. -/
def errorResult (u : String) (e : CrawlerError) : DomainResult :=
  { url := u, title := none, content := [], matchesList := [], pages_crawled := 0,
    has_more_pages := false, metadata := none, error := some e }

/-- ASCII whitespace test on characters (model of the class used by
`str::trim`, see the header note on `rustTrim`). -/
def isWsChar (c : Char) : Bool :=
  c.toNat = 32 ∨ c.toNat = 9 ∨ c.toNat = 10 ∨ c.toNat = 13 ∨ c.toNat = 11 ∨ c.toNat = 12

/-- Model of Rust `str::trim` on a character list. -/
def trimChars (cs : List Char) : List Char :=
  List.reverse (List.dropWhile isWsChar (List.reverse (List.dropWhile isWsChar cs)))

/-- Model of Rust `str::split(',')`. -/
def splitCommaAux : List Char → List Char → List (List Char)
  | [], acc => [List.reverse acc]
  | c :: tl, acc =>
    if c = ',' then List.reverse acc :: splitCommaAux tl [] else splitCommaAux tl (c :: acc)

/-- Model of `parse_urls` (crawler/mod.rs lines 259-291): trim, strip
backticks, split on commas, trim each part, default the scheme to https,
parse (skipping failures; the Rust code logs them to stderr), and fail only
when nothing survives. -/
def parse_urls (env : Env) (raw : String) : Except CrawlerError (List String) :=
  let cleaned := List.filter (fun c => ¬(c.toNat = 96)) (trimChars raw.data)
  let urls := List.foldl
    (fun acc part =>
      let t := trimChars part
      if t = [] then acc
      else
        let u := String.mk
          (if List.isPrefixOf "http://".data t ∨ List.isPrefixOf "https://".data t then t
           else "https://".data ++ t)
        match env.parse_url u with
        | some p => acc ++ [p]
        | none => acc)
    [] (splitCommaAux cleaned [])
  if urls = [] then Except.error (CrawlerError.other "No valid URLs provided") else Except.ok urls

/-- Outcome of the sequential per-domain loop of `crawl_website`. -/
inductive DomsOut where
  | ok (rs : List DomainResult) (total : Nat)
  | panicked
deriving DecidableEq, Repr

/-- The per-domain loop of `crawl_website` (crawler/mod.rs lines 306-329):
each domain is crawled in turn; an `Ok` result is pushed and counted into the
page total, an `Err` is converted into the error placeholder; only a panic
aborts the whole request. -/
def crawlDomains (env : Env) (req : CrawlRequest) (df dt : Option NDate) :
    List String → DomsOut
  | [] => DomsOut.ok [] 0
  | u :: rest =>
    match crawl_single_domain env req u df dt with
    | POut.panic => DomsOut.panicked
    | POut.ok r =>
      match crawlDomains env req df dt rest with
      | DomsOut.panicked => DomsOut.panicked
      | DomsOut.ok rs tot => DomsOut.ok (r :: rs) (r.pages_crawled + tot)
    | POut.err e =>
      match crawlDomains env req df dt rest with
      | DomsOut.panicked => DomsOut.panicked
      | DomsOut.ok rs tot => DomsOut.ok (errorResult u e :: rs) tot

/-- Model of `crawl_website` (crawler/mod.rs lines 293-343): validate the date
range, parse the URL list, crawl each domain sequentially, and assemble the
aggregate result. -/
def crawl_website (env : Env) (req : CrawlRequest) : POut CrawlResult :=
  match validate_date_range req.date_from req.date_to with
  | Except.error e => POut.err e
  | Except.ok (df, dt) =>
    match parse_urls env req.url with
    | Except.error e => POut.err e
    | Except.ok urls =>
      match crawlDomains env req df dt urls with
      | DomsOut.panicked => POut.panic
      | DomsOut.ok rs total =>
        POut.ok
          { results := rs, total_pages_crawled := total,
            total_processing_time_ms := env.elapsed_ms, crawl_timestamp := env.timestamp }

/-- The `DomainResult` entry `crawl_website` records for one URL: the crawl
result on success, the error placeholder on a domain error.  (The panic arm is
unreachable under the no-panic hypothesis of the theorems that use this.) -/
def domainEntry (env : Env) (req : CrawlRequest) (df dt : Option NDate) (u : String) :
    DomainResult :=
  match crawl_single_domain env req u df dt with
  | POut.ok r => r
  | POut.err e => errorResult u e
  | POut.panic => errorResult u (CrawlerError.other "panicked")

/-- A parsed document with nothing the crawler looks for. -/
def emptyDoc : Doc := { metas := [], times := [], titleInner := none }

/-- Bytes of the page text used in the timeout and simple scenarios. -/
def keyBytes : ByteStr := asciiBytes "key"

/-- Concrete environment for the mid-scan-timeout scenario: domain `a` serves
a page containing the keyword, domain `b` serves a page without it; the clock
exceeds the budget exactly at the third reading (the first occurrence check of
domain `a`). -/
def envC1 : Env :=
  { fetch := fun u =>
      if u = "https://a/" then Except.ok keyBytes
      else if u = "https://b/" then Except.ok (asciiBytes "no hits")
      else Except.error "unknown host"
    parse_document := fun _ => emptyDoc
    find_next_page_url := fun _ _ => none
    clean_html_text := fun b => b
    parse_url := fun s => some s
    oracle := fun n => decide (2 ≤ n)
    timestamp := 5
    elapsed_ms := 7 }

/-- The request of the mid-scan-timeout scenario: two domains, one keyword,
a one-second budget. -/
def reqC1 : CrawlRequest :=
  { url := "https://a/,https://b/", keywords := [keyBytes], max_depth := none,
    max_time_seconds := some 1, follow_pagination := none, max_pages := none,
    date_from := none, date_to := none }

/-- Concrete environment for witnesses: domain `a` fails at the transport
level, domain `b` serves a one-byte page; no clock reading ever exceeds the
budget. -/
def envSimple : Env :=
  { fetch := fun u =>
      if u = "https://b/" then Except.ok (asciiBytes "x")
      else Except.error "connection refused"
    parse_document := fun _ => emptyDoc
    find_next_page_url := fun _ _ => none
    clean_html_text := fun b => b
    parse_url := fun s => some s
    oracle := fun _ => false
    timestamp := 5
    elapsed_ms := 7 }

/-- A request over the two domains of `envSimple`, with no keywords and all
options left at their defaults. -/
def reqSimple : CrawlRequest :=
  { url := "https://a/,https://b/", keywords := [], max_depth := none,
    max_time_seconds := none, follow_pagination := none, max_pages := none,
    date_from := none, date_to := none }

/-- Page bytes of the first page of the title scenario (no keyword occurrence). -/
def htmlA8 : ByteStr := asciiBytes "aaa"

/-- Documents of the title scenario: page one has title `A` and links to page
two, which has title `B` and contains the keyword. -/
def docA8 : Doc := { metas := [], times := [], titleInner := some "A" }

/-- The second document of the title scenario. -/
def docB8 : Doc := { metas := [], times := [], titleInner := some "B" }

/-- Concrete environment for the title scenario. -/
def envC8 : Env :=
  { fetch := fun u =>
      if u = "https://a/" then Except.ok htmlA8
      else if u = "https://b/" then Except.ok keyBytes
      else Except.error "unknown host"
    parse_document := fun b => if b = htmlA8 then docA8 else if b = keyBytes then docB8 else emptyDoc
    find_next_page_url := fun d _ => if d = docA8 then some "https://b/" else none
    clean_html_text := fun b => b
    parse_url := fun s => some s
    oracle := fun _ => false
    timestamp := 5
    elapsed_ms := 7 }

/-- The request of the title scenario: pagination enabled, one keyword. -/
def reqC8 : CrawlRequest :=
  { url := "https://a/", keywords := [keyBytes], max_depth := none,
    max_time_seconds := none, follow_pagination := some true, max_pages := none,
    date_from := none, date_to := none }

/-- Concrete environment for the pagination-cycle scenario: the only page
links back to itself. -/
def envC4 : Env :=
  { fetch := fun _ => Except.ok (asciiBytes "z")
    parse_document := fun _ => emptyDoc
    find_next_page_url := fun _ _ => some "u"
    clean_html_text := fun b => b
    parse_url := fun s => some s
    oracle := fun _ => false
    timestamp := 5
    elapsed_ms := 7 }

/-- The loop configuration of the pagination-cycle scenario. -/
def cfgC4 : LoopCfg :=
  { has_limit := false, max_pages := 1, follow_pag := true, keywords := [],
    date_from := none, date_to := none }

/-- The document with two published-date meta tags used to settle the
overwrite behaviour of `extract_page_dates`. -/
def docC6 : Doc :=
  { metas := [{ property := some "article:published_time", name := none, content := some "A" },
              { property := some "article:published_time", name := none, content := some "B" }],
    times := [], titleInner := none }

/-- The euro sign is three UTF-8 bytes, none of them an ASCII letter. -/
def euroBytes : ByteStr := [226, 130, 172]

/-- Page text of the panic scenario: seventeen euro signs (51 bytes) followed
by the keyword, so the first occurrence starts at byte 51 and the context
window start `51 - 50 = 1` falls inside the first euro sign. -/
def html10 : ByteStr := List.flatten (List.replicate 17 euroBytes) ++ keyBytes

/-- A trivial environment for statements that only exercise pure processing. -/
def envTriv : Env :=
  { fetch := fun _ => Except.error "no network"
    parse_document := fun _ => emptyDoc
    find_next_page_url := fun _ _ => none
    clean_html_text := fun b => b
    parse_url := fun s => some s
    oracle := fun _ => false
    timestamp := 0
    elapsed_ms := 0 }

theorem paginateStep_done_eq (env : Env) (cfg : LoopCfg) (doc : Doc) (st s : LoopState)
    (h : paginateStep env cfg doc st = StepRes.done s) : s = st := by
  unfold paginateStep at h
  split at h
  · exact (StepRes.done.inj h).symm
  · split at h
    · split at h
      · exact (StepRes.done.inj h).symm
      · exact absurd h (by simp)
    · exact (StepRes.done.inj h).symm

theorem paginateStep_next_eq (env : Env) (cfg : LoopCfg) (doc : Doc) (st s : LoopState)
    (h : paginateStep env cfg doc st = StepRes.next s) :
    ∃ nu, s = { st with visited := nu :: st.visited, current_url := nu } := by
  unfold paginateStep at h
  split at h
  · exact absurd h (by simp)
  · split at h
    · split at h
      · exact absurd h (by simp)
      · exact ⟨_, (StepRes.next.inj h).symm⟩
    · exact absurd h (by simp)

theorem titledState_fields (doc : Doc) (st : LoopState) :
    (titledState doc st).pages_crawled = st.pages_crawled ∧
    (titledState doc st).has_more_pages = st.has_more_pages := by
  unfold titledState
  split <;> exact ⟨rfl, rfl⟩

theorem processedCore_next_fields (env : Env) (cfg : LoopCfg) (doc : Doc) (html : ByteStr)
    (st1 s : LoopState) (h : processedCore env cfg doc html st1 = StepRes.next s) :
    s.pages_crawled = st1.pages_crawled + 1 ∧ s.has_more_pages = st1.has_more_pages := by
  unfold processedCore at h
  split at h
  · exact absurd h (by simp)
  · exact absurd h (by simp)
  · obtain ⟨nu, rfl⟩ := paginateStep_next_eq _ _ _ _ _ h
    exact ⟨rfl, rfl⟩

theorem processedCore_done_fields (env : Env) (cfg : LoopCfg) (doc : Doc) (html : ByteStr)
    (st1 s : LoopState) (h : processedCore env cfg doc html st1 = StepRes.done s) :
    s.pages_crawled = st1.pages_crawled + 1 ∧ s.has_more_pages = st1.has_more_pages := by
  unfold processedCore at h
  split at h
  · exact absurd h (by simp)
  · exact absurd h (by simp)
  · have := paginateStep_done_eq _ _ _ _ _ h
    subst this
    exact ⟨rfl, rfl⟩

theorem crawlStepFetch_next_fields (env : Env) (cfg : LoopCfg) (st s : LoopState)
    (h : crawlStepFetch env cfg st = StepRes.next s) :
    s.pages_crawled = st.pages_crawled + 1 ∧ s.has_more_pages = st.has_more_pages := by
  unfold crawlStepFetch at h
  split at h
  · exact absurd h (by simp)
  · rename_i html heq
    split at h
    · have h1 := processedCore_next_fields _ _ _ _ _ _ h
      have h2 := titledState_fields (env.parse_document html) st
      exact ⟨by omega, h1.2.trans h2.2⟩
    · obtain ⟨nu, rfl⟩ := paginateStep_next_eq _ _ _ _ _ h
      exact ⟨rfl, rfl⟩

theorem crawlStepFetch_done_fields (env : Env) (cfg : LoopCfg) (st s : LoopState)
    (h : crawlStepFetch env cfg st = StepRes.done s) :
    s.pages_crawled = st.pages_crawled + 1 ∧ s.has_more_pages = st.has_more_pages := by
  unfold crawlStepFetch at h
  split at h
  · exact absurd h (by simp)
  · rename_i html heq
    split at h
    · have h1 := processedCore_done_fields _ _ _ _ _ _ h
      have h2 := titledState_fields (env.parse_document html) st
      exact ⟨by omega, h1.2.trans h2.2⟩
    · have := paginateStep_done_eq _ _ _ _ _ h
      subst this
      exact ⟨rfl, rfl⟩

theorem crawlStep_next_fields (env : Env) (cfg : LoopCfg) (st s : LoopState)
    (h : crawlStep env cfg st = StepRes.next s) :
    s.pages_crawled = st.pages_crawled + 1 ∧ s.has_more_pages = st.has_more_pages ∧
      st.pages_crawled < cfg.max_pages := by
  unfold crawlStep at h
  split at h
  · split at h
    · exact absurd h (by simp)
    · unfold crawlStepPages at h
      split at h
      · exact absurd h (by simp)
      · rename_i hor hle
        have h3 := crawlStepFetch_next_fields _ _ _ _ h
        dsimp only at h3 hle
        exact ⟨h3.1, h3.2, by omega⟩
  · unfold crawlStepPages at h
    split at h
    · exact absurd h (by simp)
    · rename_i hle
      have h3 := crawlStepFetch_next_fields _ _ _ _ h
      exact ⟨h3.1, h3.2, by omega⟩

theorem crawlStep_done_fields (env : Env) (cfg : LoopCfg) (st s : LoopState)
    (h : crawlStep env cfg st = StepRes.done s) :
    (s.has_more_pages = true ∧ s.pages_crawled = st.pages_crawled ∧
      ((cfg.has_limit = true ∧ env.oracle st.tick = true) ∨ cfg.max_pages ≤ st.pages_crawled)) ∨
    (s.pages_crawled = st.pages_crawled + 1 ∧ s.has_more_pages = st.has_more_pages ∧
      st.pages_crawled < cfg.max_pages) := by
  unfold crawlStep at h
  split at h
  · split at h
    · left
      refine ⟨?_, ?_, Or.inl ⟨by assumption, by assumption⟩⟩ <;>
        simp [← StepRes.done.inj h]
    · unfold crawlStepPages at h
      split at h
      · left
        exact ⟨by simp [← StepRes.done.inj h], by simp [← StepRes.done.inj h], Or.inr (by assumption)⟩
      · rename_i hor hle
        have h3 := crawlStepFetch_done_fields _ _ _ _ h
        dsimp only at h3 hle
        exact Or.inr ⟨h3.1, h3.2, by omega⟩
  · unfold crawlStepPages at h
    split at h
    · left
      exact ⟨by simp [← StepRes.done.inj h], by simp [← StepRes.done.inj h], Or.inr (by assumption)⟩
    · rename_i hle
      have h3 := crawlStepFetch_done_fields _ _ _ _ h
      exact Or.inr ⟨h3.1, h3.2, by omega⟩

theorem crawlLoopF_succ_of_some (env : Env) (cfg : LoopCfg) (fuel : Nat) (st : LoopState)
    (out : LoopOut) (h : crawlLoopF env cfg fuel st = some out) :
    crawlLoopF env cfg (fuel + 1) st = some out := by
  induction fuel generalizing st with
  | zero => simp [crawlLoopF] at h
  | succ n ih =>
    rw [crawlLoopF] at h
    rw [crawlLoopF]
    cases hs : crawlStep env cfg st with
    | next s2 => rw [hs] at h; exact ih s2 h
    | done s2 => rw [hs] at h; exact h
    | fail e => rw [hs] at h; exact h
    | panicked => rw [hs] at h; exact h

theorem crawlLoopF_le_of_some (env : Env) (cfg : LoopCfg) (fuel1 fuel2 : Nat) (st : LoopState)
    (out : LoopOut) (hle : fuel1 ≤ fuel2) (h : crawlLoopF env cfg fuel1 st = some out) :
    crawlLoopF env cfg fuel2 st = some out := by
  induction fuel2 with
  | zero =>
    have : fuel1 = 0 := by omega
    subst this
    exact h
  | succ n ih =>
    rcases Nat.lt_or_ge fuel1 (n + 1) with hlt | hge
    · exact crawlLoopF_succ_of_some env cfg n st out (ih (by omega))
    · have : fuel1 = n + 1 := by omega
      subst this
      exact h

theorem crawlLoopF_total (env : Env) (cfg : LoopCfg) (fuel : Nat) (st : LoopState)
    (hpages : st.pages_crawled ≤ cfg.max_pages)
    (hfuel : cfg.max_pages + 1 - st.pages_crawled ≤ fuel) :
    ∃ out, crawlLoopF env cfg fuel st = some out := by
  induction fuel generalizing st with
  | zero => omega
  | succ n ih =>
    rw [crawlLoopF]
    cases hs : crawlStep env cfg st with
    | next s2 =>
      have h3 := crawlStep_next_fields env cfg st s2 hs
      exact ih s2 (by omega) (by omega)
    | done s2 => exact ⟨LoopOut.finished s2, rfl⟩
    | fail e => exact ⟨LoopOut.failed e, rfl⟩
    | panicked => exact ⟨LoopOut.panicked, rfl⟩

theorem crawlLoopF_pages_le (env : Env) (cfg : LoopCfg) (fuel : Nat) (st : LoopState)
    (s : LoopState) (h : crawlLoopF env cfg fuel st = some (LoopOut.finished s))
    (hpages : st.pages_crawled ≤ cfg.max_pages) : s.pages_crawled ≤ cfg.max_pages := by
  induction fuel generalizing st with
  | zero => simp [crawlLoopF] at h
  | succ n ih =>
    rw [crawlLoopF] at h
    cases hs : crawlStep env cfg st with
    | next s2 =>
      rw [hs] at h
      have h3 := crawlStep_next_fields env cfg st s2 hs
      exact ih s2 h (by omega)
    | done s2 =>
      rw [hs] at h
      have hss : s2 = s := by simpa using h
      subst hss
      rcases crawlStep_done_fields env cfg st s2 hs with ⟨_, hp, _⟩ | ⟨hp, _, hlt⟩ <;> omega
    | fail e => rw [hs] at h; simp at h
    | panicked => rw [hs] at h; simp at h

theorem crawlLoopF_hasMore_budget (env : Env) (cfg : LoopCfg)
    (hor : ∀ n, env.oracle n = false) (fuel : Nat) (st s : LoopState)
    (h : crawlLoopF env cfg fuel st = some (LoopOut.finished s))
    (hpages : st.pages_crawled ≤ cfg.max_pages) (hm : st.has_more_pages = false)
    (hs2 : s.has_more_pages = true) : s.pages_crawled = cfg.max_pages := by
  induction fuel generalizing st with
  | zero => simp [crawlLoopF] at h
  | succ n ih =>
    rw [crawlLoopF] at h
    cases hs : crawlStep env cfg st with
    | next s2 =>
      rw [hs] at h
      have h3 := crawlStep_next_fields env cfg st s2 hs
      exact ih s2 h (by omega) (h3.2.1.trans hm)
    | done s2 =>
      rw [hs] at h
      have hss : s2 = s := by simpa using h
      subst hss
      rcases crawlStep_done_fields env cfg st s2 hs with ⟨_, hp, hc⟩ | ⟨hp, hmp, hlt⟩
      · rcases hc with ⟨_, hoc⟩ | hc
        · rw [hor st.tick] at hoc
          exact absurd hoc (by simp)
        · omega
      · rw [hs2] at hmp
        rw [hm] at hmp
        exact absurd hmp (by simp)
    | fail e => rw [hs] at h; simp at h
    | panicked => rw [hs] at h; simp at h

theorem crawl_single_domain_ok (env : Env) (req : CrawlRequest) (u : String)
    (df dt : Option NDate) (r : DomainResult)
    (h : crawl_single_domain env req u df dt = POut.ok r) :
    r.pages_crawled ≤ req.max_pages.getD 10 ∧ r.error = none := by
  simp only [crawl_single_domain] at h
  split at h
  · exact absurd h (by simp)
  · exact absurd h (by simp)
  · exact absurd h (by simp)
  · rename_i s hloop
    have hr := POut.ok.inj h
    have hp := crawlLoopF_pages_le env (cfgOfRequest req df dt) _ (initState u) s hloop
      (by simp [initState])
    constructor
    · rw [← hr]
      simpa [cfgOfRequest] using hp
    · rw [← hr]

theorem crawl_single_domain_fuel_never_exhausted (env : Env) (req : CrawlRequest)
    (u : String) (df dt : Option NDate) :
    crawlLoopF env (cfgOfRequest req df dt) ((cfgOfRequest req df dt).max_pages + 1)
      (initState u) ≠ none := by
  obtain ⟨out, hout⟩ := crawlLoopF_total env (cfgOfRequest req df dt)
    ((cfgOfRequest req df dt).max_pages + 1) (initState u) (by simp [initState]) (by omega)
  rw [hout]
  simp

theorem crawlDomains_spec (env : Env) (req : CrawlRequest) (df dt : Option NDate)
    (us : List String) (hnp : ∀ u ∈ us, crawl_single_domain env req u df dt ≠ POut.panic) :
    crawlDomains env req df dt us =
      DomsOut.ok (List.map (domainEntry env req df dt) us)
        (List.sum (List.map DomainResult.pages_crawled
          (List.filter (fun r => r.error.isNone)
            (List.map (domainEntry env req df dt) us)))) := by
  induction us with
  | nil => simp [crawlDomains]
  | cons u rest ih =>
    have hu : crawl_single_domain env req u df dt ≠ POut.panic := hnp u (by simp)
    have hrest : ∀ v ∈ rest, crawl_single_domain env req v df dt ≠ POut.panic :=
      fun v hv => hnp v (by simp [hv])
    rw [crawlDomains]
    cases hc : crawl_single_domain env req u df dt with
    | panic => exact absurd hc hu
    | ok r =>
      rw [ih hrest]
      have herr : r.error = none := (crawl_single_domain_ok env req u df dt r hc).2
      simp [domainEntry, hc, herr]
    | err e =>
      rw [ih hrest]
      simp [domainEntry, hc, errorResult]

theorem crawl_website_spec (env : Env) (req : CrawlRequest) (df dt : Option NDate)
    (urls : List String)
    (h1 : validate_date_range req.date_from req.date_to = Except.ok (df, dt))
    (h2 : parse_urls env req.url = Except.ok urls)
    (hnp : ∀ u ∈ urls, crawl_single_domain env req u df dt ≠ POut.panic) :
    crawl_website env req =
      POut.ok
        { results := List.map (domainEntry env req df dt) urls,
          total_pages_crawled :=
            List.sum (List.map DomainResult.pages_crawled
              (List.filter (fun r => r.error.isNone)
                (List.map (domainEntry env req df dt) urls))),
          total_processing_time_ms := env.elapsed_ms,
          crawl_timestamp := env.timestamp } := by
  unfold crawl_website
  rw [h1, h2]
  dsimp only
  rw [crawlDomains_spec env req df dt urls hnp]

theorem processOneKeyword_timeout (env : Env) (kw html : ByteStr) (ms0 : List KeywordMatch)
    (t0 : Nat) (url : String) (h1 : env.oracle t0 = false) (h2 : env.oracle (t0 + 1) = true)
    (h3 : 0 < rustCountMatches (rustLower html) (rustLower (rustTrim kw))) :
    processOneKeyword env true html (rustLower html) url kw ms0 t0 =
      (ms0 ++ [sentinelMatch env kw (rustCountMatches (rustLower html) (rustLower (rustTrim kw))) url],
       t0 + 2, POut.err CrawlerError.timeoutError) := by
  obtain ⟨i, restI, hidx⟩ :
      ∃ i restI, rustMatchIndices (rustLower html) (rustLower (rustTrim kw)) = i :: restI := by
    rcases hix : rustMatchIndices (rustLower html) (rustLower (rustTrim kw)) with _ | ⟨i, restI⟩
    · rw [rustCountMatches, hix] at h3
      simp at h3
    · exact ⟨i, restI, rfl⟩
  have hcount : rustCountMatches (rustLower html) (rustLower (rustTrim kw)) =
      List.length (i :: restI) := by
    rw [rustCountMatches, hidx]
  unfold processOneKeyword
  rw [if_pos rfl]
  simp only [h1, Bool.false_eq_true, if_false, hidx]
  rw [if_neg (by simp)]
  rw [scanOccurrences]
  simp only [if_pos rfl, h2, if_true, hcount]

theorem process_page_content_timeout (env : Env) (kw html : ByteStr) (rest : List ByteStr)
    (ms0 : List KeywordMatch) (t0 : Nat) (url : String)
    (h1 : env.oracle t0 = false) (h2 : env.oracle (t0 + 1) = true)
    (h3 : 0 < rustCountMatches (rustLower html) (rustLower (rustTrim kw))) :
    process_page_content env true html (kw :: rest) ms0 t0 url =
      (ms0 ++ [sentinelMatch env kw (rustCountMatches (rustLower html) (rustLower (rustTrim kw))) url],
       t0 + 2, POut.err CrawlerError.timeoutError) := by
  have hcons : processKeywords env true html (rustLower html) url (kw :: rest) ms0 t0 =
      (ms0 ++ [sentinelMatch env kw
          (rustCountMatches (rustLower html) (rustLower (rustTrim kw))) url],
       t0 + 2, POut.err CrawlerError.timeoutError) := by
    show (match processOneKeyword env true html (rustLower html) url kw ms0 t0 with
          | (ms1, t1, POut.ok _) => processKeywords env true html (rustLower html) url rest ms1 t1
          | (ms1, t1, POut.err e) => (ms1, t1, POut.err e)
          | (ms1, t1, POut.panic) => (ms1, t1, POut.panic)) = _
    rw [processOneKeyword_timeout env kw html ms0 t0 url h1 h2 h3]
  simp only [process_page_content, hcons]

theorem backOr_nil (d : Option String) : backOr d [] = d := rfl

theorem backOr_cons (d : Option String) (v : String) (l : List String) :
    backOr d (v :: l) = backOr (some v) l := rfl

theorem backOr_append (d : Option String) (l1 l2 : List String) :
    backOr d (l1 ++ l2) = backOr (backOr d l1) l2 := by
  unfold backOr
  exact List.foldl_append _ _ _ _

theorem backOr_getLast (d : Option String) (l : List String) :
    backOr d l = match List.getLast? l with | some v => some v | none => d := by
  induction l generalizing d with
  | nil => rfl
  | cons a l ih =>
    rw [backOr_cons, ih]
    cases l with
    | nil => rfl
    | cons b bs =>
      rw [List.getLast?_cons_cons]
      cases h : List.getLast? (b :: bs) with
      | none => simp at h
      | some v => rfl

theorem metaStep_eq (acc : Option String × Option String) (mt : MetaTag) :
    metaStep acc mt = (backOr acc.1 (metaModifiedVals mt), backOr acc.2 (metaPublishedVals mt)) := by
  rcases mt with ⟨p, n, c⟩
  rcases acc with ⟨lm, pd⟩
  rw [metaModifiedVals, metaPublishedVals]
  rw [backOr_append, backOr_append]
  unfold metaStep metaPropertyVals metaNameVals
  rcases p with _ | p <;> rcases n with _ | n <;> rcases c with _ | c <;>
    dsimp only <;> (try split_ifs) <;>
    simp_all [backOr_nil, backOr_cons, Option.toList]

theorem foldl_metaStep (ms : List MetaTag) (acc : Option String × Option String) :
    List.foldl metaStep acc ms =
      (backOr acc.1 (List.flatten (List.map metaModifiedVals ms)),
       backOr acc.2 (List.flatten (List.map metaPublishedVals ms))) := by
  induction ms generalizing acc with
  | nil => simp [backOr_nil]
  | cons mt ms ih =>
    rw [List.foldl_cons, metaStep_eq, ih]
    simp [backOr_append]

theorem foldl_timeStep (ts : List String) (pd : Option String) :
    List.foldl timeStep pd ts =
      match pd with | some v => some v | none => List.head? ts := by
  induction ts generalizing pd with
  | nil => cases pd <;> rfl
  | cons t ts ih =>
    rw [List.foldl_cons]
    cases pd with
    | some v => rw [timeStep]; simp only [Option.isNone_some, Bool.false_eq_true, if_false]; rw [ih]
    | none =>
      rw [timeStep]
      simp only [Option.isNone_none, if_true]
      rw [ih]
      rfl

theorem extract_page_dates_eq (doc : Doc) :
    extract_page_dates doc =
      (backOr none (List.flatten (List.map metaModifiedVals doc.metas)),
       backOr (List.head? doc.times) (List.flatten (List.map metaPublishedVals doc.metas))) := by
  unfold extract_page_dates
  rw [foldl_metaStep]
  dsimp only
  rw [foldl_timeStep]
  refine congrArg (Prod.mk _) ?_
  rw [backOr_getLast (List.head? doc.times), backOr_getLast none]
  cases List.getLast? (List.flatten (List.map metaPublishedVals doc.metas)) <;> rfl

theorem rustLower_length (s : ByteStr) : List.length (rustLower s) = List.length s :=
  List.length_map s lowerByte

theorem rustContains_iff (hay pat : ByteStr) :
    rustContains hay pat = true ↔ ∃ p, pat <+: List.drop p hay := by
  unfold rustContains
  rw [List.any_eq_true]
  constructor
  · rintro ⟨p, _, hpre⟩
    exact ⟨p, List.isPrefixOf_iff_prefix.mp hpre⟩
  · rintro ⟨p, hpre⟩
    by_cases hple : p ≤ List.length hay
    · refine ⟨p, ?_, List.isPrefixOf_iff_prefix.mpr hpre⟩
      rw [List.mem_range]
      omega
    · have hdrop : List.drop p hay = [] := List.drop_eq_nil_of_le (by omega)
      rw [hdrop] at hpre
      have hpat : pat = [] := List.prefix_nil.mp hpre
      subst hpat
      exact ⟨0, by simp, List.isPrefixOf_iff_prefix.mpr (List.nil_prefix)⟩

theorem rustContains_nil_pat (hay : ByteStr) : rustContains hay [] = true := by
  rw [rustContains_iff]
  exact ⟨0, List.nil_prefix⟩

theorem rustContains_take_transfer (t : Nat) (c1 c2 pat : ByteStr) (hne : pat ≠ [])
    (hpre : ∀ p, p ≤ List.length c1 → List.isPrefixOf pat (List.drop p c1) = true →
        List.isPrefixOf pat (List.drop p c2) = true)
    (h : rustContains (List.take t c1) pat = true) :
    rustContains (List.take t c2) pat = true := by
  rw [rustContains_iff] at h
  obtain ⟨p, hp⟩ := h
  rw [List.drop_take, List.prefix_take_iff] at hp
  obtain ⟨hp1, hp2⟩ := hp
  have hlenpat : 0 < List.length pat := by
    cases pat with
    | nil => exact absurd rfl hne
    | cons a l => simp
  have hpc1 : p ≤ List.length c1 := by
    by_contra hgt
    have hdrop : List.drop p c1 = [] := List.drop_eq_nil_of_le (by omega)
    rw [hdrop] at hp1
    exact hne (List.prefix_nil.mp hp1)
  have hp2c : List.isPrefixOf pat (List.drop p c2) = true :=
    hpre p hpc1 (List.isPrefixOf_iff_prefix.mpr hp1)
  rw [rustContains_iff]
  refine ⟨p, ?_⟩
  rw [List.drop_take, List.prefix_take_iff]
  exact ⟨List.isPrefixOf_iff_prefix.mp hp2c, hp2⟩

theorem rustSlice_some (s : ByteStr) (a b : Nat) (r : ByteStr)
    (h : rustSlice s a b = some r) : r = List.take (b - a) (List.drop a s) := by
  unfold rustSlice at h
  split at h
  · exact (Option.some.inj h).symm
  · exact absurd h (by simp)

theorem calc_score_zero (k c : ByteStr)
    (h : rustCountMatches (rustLower c) (rustLower k) = 0) :
    calculate_relevance_score k c = some 0 := by
  simp only [calculate_relevance_score]
  rw [if_pos h]

theorem calc_score_bounds (k c : ByteStr) (q : ℚ)
    (h : calculate_relevance_score k c = some q) : 0 ≤ q ∧ q ≤ 100 := by
  simp only [calculate_relevance_score] at h
  split at h
  · obtain rfl : (0 : ℚ) = q := Option.some.inj h
    norm_num
  · split at h
    · exact absurd h (by simp)
    · split at h
      · obtain rfl : (100 : ℚ) = q := Option.some.inj h
        norm_num
      · obtain rfl := Option.some.inj h
        constructor
        · apply le_min _ (by norm_num)
          apply mul_nonneg _ (by norm_num)
          apply add_nonneg
          · apply mul_nonneg _ (by norm_num)
            apply div_nonneg (by positivity) (by positivity)
          · split_ifs <;> norm_num
        · exact min_le_right _ _

theorem calc_score_monotone (k c1 c2 : ByteStr) (q1 q2 : ℚ)
    (hlen : List.length c1 = List.length c2)
    (hcount : 2 * rustCountMatches (rustLower c1) (rustLower k) ≤
      rustCountMatches (rustLower c2) (rustLower k))
    (hpre : ∀ p, p ≤ List.length c1 →
      List.isPrefixOf (rustLower k) (List.drop p (rustLower c1)) = true →
      List.isPrefixOf (rustLower k) (List.drop p (rustLower c2)) = true)
    (h1 : calculate_relevance_score k c1 = some q1)
    (h2 : calculate_relevance_score k c2 = some q2) : q1 ≤ q2 := by
  by_cases hz : rustCountMatches (rustLower c1) (rustLower k) = 0
  · rw [calc_score_zero k c1 hz] at h1
    obtain rfl : (0 : ℚ) = q1 := Option.some.inj h1
    exact (calc_score_bounds k c2 q2 h2).1
  · have hz2 : rustCountMatches (rustLower c2) (rustLower k) ≠ 0 := by omega
    simp only [calculate_relevance_score] at h1 h2
    rw [if_neg hz] at h1
    rw [if_neg hz2] at h2
    split at h1
    · exact absurd h1 (by simp)
    · rename_i ft1 hs1
      split at h2
      · exact absurd h2 (by simp)
      · rename_i ft2 hs2
        by_cases hL : List.length c1 = 0
        · rw [if_pos hL] at h1
          rw [if_pos (hlen ▸ hL)] at h2
          obtain rfl : (100 : ℚ) = q1 := Option.some.inj h1
          obtain rfl : (100 : ℚ) = q2 := Option.some.inj h2
          exact le_refl _
        · have hL2 : List.length c2 ≠ 0 := by omega
          rw [if_neg hL] at h1
          rw [if_neg hL2] at h2
          have hft1 : ft1 = List.take (List.length c1 / 3) (rustLower c1) := by
            rw [rustSlice_some _ _ _ _ hs1]
            simp [rustLower_length, Nat.min_eq_left (Nat.div_le_self (List.length c1) 3)]
          have hft2 : ft2 = List.take (List.length c1 / 3) (rustLower c2) := by
            rw [rustSlice_some _ _ _ _ hs2]
            simp [rustLower_length, Nat.min_eq_left (Nat.div_le_self (List.length c2) 3), hlen]
          have hboost : (if rustContains ft1 (rustLower k) then (3 : ℚ) / 10 else 0) ≤
              (if rustContains ft2 (rustLower k) then (3 : ℚ) / 10 else 0) := by
            rw [hft1, hft2]
            split_ifs with ha hb
            · exact le_refl _
            · exfalso
              apply hb
              by_cases hk : rustLower k = []
              · rw [hk]
                exact rustContains_nil_pat _
              · refine rustContains_take_transfer _ (rustLower c1) (rustLower c2)
                  (rustLower k) hk ?_ ha
                intro p hp hpp
                refine hpre p ?_ hpp
                rw [rustLower_length] at hp
                exact hp
            · norm_num
            · exact le_refl _
          have hdens : ((rustCountMatches (rustLower c1) (rustLower k) : ℚ) * 100) /
              ((List.length c1 : ℚ)) ≤
              ((rustCountMatches (rustLower c2) (rustLower k) : ℚ) * 100) /
              ((List.length c2 : ℚ)) := by
            rw [← hlen]
            have hpos : (0 : ℚ) < (List.length c1 : ℚ) := by
              have h4 : 0 < List.length c1 := Nat.pos_of_ne_zero hL
              exact_mod_cast h4
            have h5 : rustCountMatches (rustLower c1) (rustLower k) ≤
                rustCountMatches (rustLower c2) (rustLower k) := by omega
            have hcast : ((rustCountMatches (rustLower c1) (rustLower k) : ℚ)) ≤
                ((rustCountMatches (rustLower c2) (rustLower k) : ℚ)) := by exact_mod_cast h5
            gcongr
          obtain rfl := Option.some.inj h1
          obtain rfl := Option.some.inj h2
          refine min_le_min ?_ (le_refl 100)
          refine mul_le_mul_of_nonneg_right ?_ (by norm_num)
          exact add_le_add (mul_le_mul_of_nonneg_right hdens (by norm_num)) hboost

/-- C1 (counterexample): in the concrete two-domain request of `envC1`, the
time budget fires mid occurrence scan on the first domain; the returned
CrawlResult records that domain with `error = TimeoutError` and an *empty*
match list, so the sentinel partial match is not present in the domain's
entry, contrary to the claim; the second domain still crawls (1 page). -/
theorem c1_counterexample_partial_match_dropped :
    (crawl_website envC1 reqC1).getOk.map
      (fun c => (c.total_pages_crawled,
        List.map (fun r => (r.error, r.matchesList, r.pages_crawled)) c.results)) =
      some (1, [(some CrawlerError.timeoutError, [], 0), (none, [], 1)]) := by
  decide

/-- C1 (amended): when a TimeoutError is raised mid-keyword-scan, the partial
match (a KeywordMatch with the sentinel truncation context) is appended to the
in-progress match accumulator before the error propagates, and the timeout
ends only that domain's crawl, not the whole request; but the domain's entry
in the returned CrawlResult is the error placeholder, whose match list is
empty — the accumulated partial match is discarded at the domain boundary. -/
theorem c1_amended_sentinel_appended_then_domain_error :
    (∀ (env : Env) (kw html : ByteStr) (rest : List ByteStr) (ms0 : List KeywordMatch)
        (t0 : Nat) (url : String),
      env.oracle t0 = false → env.oracle (t0 + 1) = true →
      0 < rustCountMatches (rustLower html) (rustLower (rustTrim kw)) →
      process_page_content env true html (kw :: rest) ms0 t0 url =
        (ms0 ++ [sentinelMatch env kw
            (rustCountMatches (rustLower html) (rustLower (rustTrim kw))) url],
         t0 + 2, POut.err CrawlerError.timeoutError)) ∧
    (crawl_website envC1 reqC1).getOk.map
        (fun c => List.map (fun r => r.error) c.results) =
      some [some CrawlerError.timeoutError, none] := by
  constructor
  · intro env kw html rest ms0 t0 url h1 h2 h3
    exact process_page_content_timeout env kw html rest ms0 t0 url h1 h2 h3
  · decide

/-- C1 (witness): the amended theorem applied at the concrete timeout
scenario: one occurrence of the keyword, clock readings false then true. -/
theorem c1_witness :
    envC1.oracle 1 = false ∧ envC1.oracle 2 = true ∧
    0 < rustCountMatches (rustLower keyBytes) (rustLower (rustTrim keyBytes)) ∧
    process_page_content envC1 true keyBytes [keyBytes] [] 1 "https://a/" =
      ([] ++ [sentinelMatch envC1 keyBytes
          (rustCountMatches (rustLower keyBytes) (rustLower (rustTrim keyBytes))) "https://a/"],
       1 + 2, POut.err CrawlerError.timeoutError) := by
  refine ⟨by decide, by decide, by decide, ?_⟩
  exact c1_amended_sentinel_appended_then_domain_error.1 envC1 keyBytes keyBytes [] [] 1
    "https://a/" (by decide) (by decide) (by decide)

/-- C2: for every crawl request and domain crawl, the `pages_crawled` count in
a successful DomainResult never exceeds `max_pages` (default 10 when the
request omits it); and whenever the loop terminates at the page-cap check
(`pages_crawled >= max_pages` at the top of an iteration, with the time check
not firing first), the state is returned with `has_more_pages := true`. -/
theorem c2_pages_never_exceed_cap :
    (∀ (env : Env) (req : CrawlRequest) (u : String) (df dt : Option NDate) (r : DomainResult),
      crawl_single_domain env req u df dt = POut.ok r →
      r.pages_crawled ≤ req.max_pages.getD 10) ∧
    (∀ (env : Env) (cfg : LoopCfg) (st : LoopState), cfg.has_limit = false →
      cfg.max_pages ≤ st.pages_crawled →
      crawlStep env cfg st = StepRes.done { st with has_more_pages := true }) ∧
    (∀ (env : Env) (cfg : LoopCfg) (st : LoopState), cfg.has_limit = true →
      env.oracle st.tick = false → cfg.max_pages ≤ st.pages_crawled →
      crawlStep env cfg st =
        StepRes.done { st with tick := st.tick + 1, has_more_pages := true }) := by
  refine ⟨?_, ?_, ?_⟩
  · intro env req u df dt r h
    exact (crawl_single_domain_ok env req u df dt r h).1
  · intro env cfg st hl hle
    unfold crawlStep
    rw [if_neg (by simp [hl])]
    unfold crawlStepPages
    rw [if_pos hle]
  · intro env cfg st hl hor hle
    unfold crawlStep
    rw [if_pos hl, if_neg (by simp [hor])]
    unfold crawlStepPages
    rw [if_pos hle]

/-- C2 (witness): a one-page crawl of the simple environment stays within the
default cap of 10, and a state already at the cap of `cfgC4` terminates with
`has_more_pages = true`. -/
theorem c2_witness :
    crawl_single_domain envSimple reqSimple "https://b/" none none = POut.ok
      ⟨"https://b/", none, [120], [], 1, false, some ⟨5, 7, none, none, none⟩, none⟩ ∧
    (⟨"https://b/", none, [120], [], 1, false, some ⟨5, 7, none, none, none⟩,
        none⟩ : DomainResult).pages_crawled ≤ reqSimple.max_pages.getD 10 ∧
    crawlStep envC4 cfgC4 { initState "u" with pages_crawled := 1 } =
      StepRes.done { { initState "u" with pages_crawled := 1 } with has_more_pages := true } := by
  refine ⟨by decide, ?_, ?_⟩
  · exact c2_pages_never_exceed_cap.1 envSimple reqSimple "https://b/" none none _ (by decide)
  · exact c2_pages_never_exceed_cap.2.1 envC4 cfgC4 _ rfl (by decide)

/-- C3: a failure of one domain's crawl is converted into a DomainResult with
only `url` and `error` populated (zero pages, empty content and matches, no
title, no metadata); every parsed URL gets exactly its own entry regardless of
sibling failures, and `total_pages_crawled` is the sum of `pages_crawled` over
the entries whose `error` is absent (the successful domains). -/
theorem c3_domain_failure_isolated (env : Env) (req : CrawlRequest) (df dt : Option NDate)
    (urls : List String)
    (h1 : validate_date_range req.date_from req.date_to = Except.ok (df, dt))
    (h2 : parse_urls env req.url = Except.ok urls)
    (hnp : ∀ u ∈ urls, crawl_single_domain env req u df dt ≠ POut.panic) :
    crawl_website env req =
      POut.ok ⟨List.map (domainEntry env req df dt) urls,
        List.sum (List.map DomainResult.pages_crawled
          (List.filter (fun r => r.error.isNone) (List.map (domainEntry env req df dt) urls))),
        env.elapsed_ms, env.timestamp⟩ ∧
    (∀ (u : String) (e : CrawlerError), crawl_single_domain env req u df dt = POut.err e →
      domainEntry env req df dt u = ⟨u, none, [], [], 0, false, none, some e⟩) := by
  constructor
  · exact crawl_website_spec env req df dt urls h1 h2 hnp
  · intro u e he
    unfold domainEntry
    rw [he]
    rfl

/-- C3 (witness): the two-domain request of `envSimple`, whose first domain
fails at the transport level and whose second crawls one page. -/
theorem c3_witness :
    validate_date_range reqSimple.date_from reqSimple.date_to = Except.ok (none, none) ∧
    parse_urls envSimple reqSimple.url = Except.ok ["https://a/", "https://b/"] ∧
    crawl_website envSimple reqSimple =
      POut.ok ⟨List.map (domainEntry envSimple reqSimple none none) ["https://a/", "https://b/"],
        List.sum (List.map DomainResult.pages_crawled
          (List.filter (fun r => r.error.isNone)
            (List.map (domainEntry envSimple reqSimple none none) ["https://a/", "https://b/"]))),
        envSimple.elapsed_ms, envSimple.timestamp⟩ := by
  refine ⟨by decide, by decide, ?_⟩
  exact (c3_domain_failure_isolated envSimple reqSimple none none ["https://a/", "https://b/"]
    (by decide) (by decide) (by decide)).1

/-- C4: the crawl loop always terminates — fuel `max_pages + 1 - pages_crawled`
suffices and any larger fuel gives the same result; when `follow_pagination`
is enabled and `findNextPageUrl` returns nothing or an already-visited URL
(a pagination cycle), the iteration stops with the state unchanged (in
particular `has_more_pages` is untouched); and when no clock reading ever
exceeds the budget, a finished crawl with `has_more_pages = true` can only
have stopped at the page cap — so a pagination stop with no budget hit leaves
`has_more_pages = false`. -/
theorem c4_pagination_cycle_terminates (env : Env) (cfg : LoopCfg) (st : LoopState)
    (hpages : st.pages_crawled ≤ cfg.max_pages) :
    (∃ out, crawlLoopF env cfg (cfg.max_pages + 1 - st.pages_crawled) st = some out) ∧
    (∀ fuel, cfg.max_pages + 1 - st.pages_crawled ≤ fuel →
      crawlLoopF env cfg fuel st = crawlLoopF env cfg (cfg.max_pages + 1 - st.pages_crawled) st) ∧
    (∀ doc : Doc, cfg.follow_pag = true →
      (env.find_next_page_url doc st.current_url = none ∨
        ∃ nu, env.find_next_page_url doc st.current_url = some nu ∧
          List.contains st.visited nu = true) →
      paginateStep env cfg doc st = StepRes.done st) ∧
    ((∀ n, env.oracle n = false) → st.has_more_pages = false →
      ∀ fuel s, crawlLoopF env cfg fuel st = some (LoopOut.finished s) →
        s.has_more_pages = true → s.pages_crawled = cfg.max_pages) := by
  obtain ⟨out, hout⟩ :=
    crawlLoopF_total env cfg (cfg.max_pages + 1 - st.pages_crawled) st hpages (le_refl _)
  refine ⟨⟨out, hout⟩, ?_, ?_, ?_⟩
  · intro fuel hf
    rw [hout]
    exact crawlLoopF_le_of_some env cfg _ fuel st out hf hout
  · intro doc hfp hstop
    unfold paginateStep
    rw [if_neg (by simp [hfp])]
    rcases hstop with hnone | ⟨nu, hsome, hmem⟩
    · rw [hnone]
    · rw [hsome]
      dsimp only
      rw [if_pos hmem]
  · intro hor hm fuel s hloop hs
    exact crawlLoopF_hasMore_budget env cfg hor fuel st s hloop hpages hm hs

/-- C4 (witness): the self-cycling site of `envC4`: the pagination probe
returns the already-visited seed URL, the iteration stops, and the loop
finishes within its fuel bound with `has_more_pages = false`. -/
theorem c4_witness :
    (initState "u").pages_crawled ≤ cfgC4.max_pages ∧
    paginateStep envC4 cfgC4 emptyDoc (initState "u") = StepRes.done (initState "u") ∧
    crawlLoopF envC4 cfgC4 2 (initState "u") =
      some (LoopOut.finished ⟨["u"], [], 1, false, "u", none, [122], 0⟩) := by
  refine ⟨by decide, ?_, by decide⟩
  exact (c4_pagination_cycle_terminates envC4 cfgC4 (initState "u") (by decide)).2.2.1
    emptyDoc rfl (Or.inr ⟨"u", rfl, by decide⟩)

/-- C5: the date filter returns true when neither bound is set; with at least
one bound it ignores unparseable candidate dates, returns true when no
candidate is parseable at all, and otherwise returns true exactly when some
parseable candidate lies within the bounds (open on an absent bound). -/
theorem c5_date_filter_semantics (lm pd : Option String) (df dt : Option NDate) :
    ((df = none ∧ dt = none) → matches_date_filter lm pd df dt = true) ∧
    (¬(df = none ∧ dt = none) → pageParsedDates lm pd = [] →
      matches_date_filter lm pd df dt = true) ∧
    (¬(df = none ∧ dt = none) → pageParsedDates lm pd ≠ [] →
      (matches_date_filter lm pd df dt = true ↔
        ∃ d ∈ pageParsedDates lm pd, withinBounds df dt d = true)) := by
  refine ⟨?_, ?_, ?_⟩
  · intro h
    simp only [matches_date_filter]
    rw [if_pos h]
  · intro h hemp
    simp only [matches_date_filter]
    rw [if_neg h, if_pos hemp]
  · intro h hne
    simp only [matches_date_filter]
    rw [if_neg h, if_neg hne]
    exact List.any_eq_true

/-- C5 (witness): the filter applied with no bounds, and with a from-bound
against a page whose only date string is unparseable. -/
theorem c5_witness :
    matches_date_filter (some "2024-06-01") none none none = true ∧
    matches_date_filter none (some "garbage") (some ⟨2024, 1, 1⟩) none = true := by
  constructor
  · exact (c5_date_filter_semantics (some "2024-06-01") none none none).1 ⟨rfl, rfl⟩
  · exact (c5_date_filter_semantics none (some "garbage") (some ⟨2024, 1, 1⟩) none).2.1
      (by simp) (by decide)

/-- C6 (counterexample): a document whose two published-time meta tags carry
"A" then "B" extracts published = "B": the later matching meta tag of the same
category overwrites the earlier one, contrary to the first-match-wins claim. -/
theorem c6_counterexample_second_meta_overwrites :
    extract_page_dates docC6 = (none, some "B") ∧ some "B" ≠ (some "A" : Option String) := by
  constructor <;> decide

/-- C6 (amended): per category the *last* matching meta tag in document order
wins (each match with a present content attribute assigns unconditionally,
property attribute examined before name on each tag); `time[datetime]`
elements are used for published only when no meta tag supplied it, and among
them the first wins. -/
theorem c6_amended_last_meta_wins (doc : Doc) :
    extract_page_dates doc =
      (backOr none (List.flatten (List.map metaModifiedVals doc.metas)),
       backOr (List.head? doc.times) (List.flatten (List.map metaPublishedVals doc.metas))) :=
  extract_page_dates_eq doc

/-- C7 (counterexample): the string "06/15/2024" (MM/DD/YYYY) is rejected by
the whole parse chain, so a page whose only date is in that form is treated as
having *no* parseable date and is included by the permissive default even when
the bounds exclude 2024 dates — contrary to the claim that MM/DD/YYYY is an
accepted format. -/
theorem c7_counterexample_mmddyyyy_not_parsed :
    parse_page_date "06/15/2024" = none ∧
    pageParsedDates (some "06/15/2024") none = [] ∧
    matches_date_filter (some "06/15/2024") none (some ⟨2020, 1, 1⟩) (some ⟨2020, 12, 31⟩)
      = true := by
  refine ⟨by decide, by decide, by decide⟩

/-- C7 (amended): page-extracted dates are parsed by trying RFC 3339, then
`%Y-%m-%d`, then `%Y/%m/%d`, in that priority order with the first success
winning; `MM/DD/YYYY` is not among the accepted formats. -/
theorem c7_amended_parse_chain :
    (∀ (s : String) (d : NDate), parse_rfc3339 s = some d → parse_page_date s = some d) ∧
    (∀ (s : String) (d : NDate), parse_rfc3339 s = none → parse_ymd '-' s = some d →
      parse_page_date s = some d) ∧
    (∀ s : String, parse_rfc3339 s = none → parse_ymd '-' s = none →
      parse_page_date s = parse_ymd '/' s) ∧
    parse_page_date "2024-06-01" = some ⟨2024, 6, 1⟩ ∧
    parse_page_date "2024/06/01" = some ⟨2024, 6, 1⟩ ∧
    parse_page_date "2024-06-01T12:30:00Z" = some ⟨2024, 6, 1⟩ ∧
    parse_page_date "06/15/2024" = none := by
  refine ⟨?_, ?_, ?_, by decide, by decide, by decide, by decide⟩
  · intro s d h
    unfold parse_page_date
    rw [h]
  · intro s d h1 h2
    unfold parse_page_date
    rw [h1, h2]
  · intro s h1 h2
    unfold parse_page_date
    rw [h1, h2]

/-- C7 (witness): the chain applied to a full RFC 3339 timestamp (leap day,
numeric offset). -/
theorem c7_witness :
    parse_rfc3339 "2020-02-29T23:59:59+05:30" = some ⟨2020, 2, 29⟩ ∧
    parse_page_date "2020-02-29T23:59:59+05:30" = some ⟨2020, 2, 29⟩ := by
  refine ⟨by decide, ?_⟩
  exact c7_amended_parse_chain.1 "2020-02-29T23:59:59+05:30" ⟨2020, 2, 29⟩ (by decide)

/-- C8: the title guard is `all_matches.is_empty()`, not a once-flag: in the
two-page crawl of `envC8` the first processed page (title "A") yields no
keyword match, so the second page recomputes and overwrites the title, and the
DomainResult carries title "B" — while the first page whose content was
processed had title "A".  This contradicts the code's own comment ("only for
the first page that matches the filter") and the claim. -/
theorem c8_title_recomputed_until_first_match :
    docA8.titleInner = some "A" ∧
    (crawl_single_domain envC8 reqC8 "https://a/" none none).getOk.map
      (fun r => (r.title, r.pages_crawled)) = some (some "B", 2) := by
  constructor <;> decide

/-- C9: every returned relevance score lies in [0, 100]; zero occurrences give
score 0; and for contexts of equal length, where the second preserves the
first's occurrence positions and has at least twice its occurrence count, the
second score is never smaller (occurrence counts and positions taken on the
lowercased text, as the code does). -/
theorem c9_score_monotone_bounded :
    (∀ (k c : ByteStr) (q : ℚ), calculate_relevance_score k c = some q → 0 ≤ q ∧ q ≤ 100) ∧
    (∀ k c : ByteStr, rustCountMatches (rustLower c) (rustLower k) = 0 →
      calculate_relevance_score k c = some 0) ∧
    (∀ (k c1 c2 : ByteStr) (q1 q2 : ℚ),
      List.length c1 = List.length c2 →
      2 * rustCountMatches (rustLower c1) (rustLower k) ≤
        rustCountMatches (rustLower c2) (rustLower k) →
      (∀ p, p ≤ List.length c1 →
        List.isPrefixOf (rustLower k) (List.drop p (rustLower c1)) = true →
        List.isPrefixOf (rustLower k) (List.drop p (rustLower c2)) = true) →
      calculate_relevance_score k c1 = some q1 →
      calculate_relevance_score k c2 = some q2 → q1 ≤ q2) :=
  ⟨calc_score_bounds, calc_score_zero, calc_score_monotone⟩

/-- C9 (witness): the monotonicity conjunct applied to two occurrence-free
2-byte contexts (both scores are 0 by the zero-occurrence rule), with every
hypothesis discharged on the concrete values. -/
theorem c9_witness :
    calculate_relevance_score keyBytes [95, 95] = some 0 ∧
    calculate_relevance_score keyBytes [96, 96] = some 0 ∧ ((0 : ℚ) ≤ 0) := by
  have h1 : calculate_relevance_score keyBytes [95, 95] = some 0 :=
    calc_score_zero keyBytes [95, 95] (by decide)
  have h2 : calculate_relevance_score keyBytes [96, 96] = some 0 :=
    calc_score_zero keyBytes [96, 96] (by decide)
  refine ⟨h1, h2, ?_⟩
  exact c9_score_monotone_bounded.2.2 keyBytes [95, 95] [96, 96] 0 0
    (by decide) (by decide) (by decide) h1 h2

/-- C10: keyword matching is *not* total on arbitrary UTF-8: on a page of
seventeen euro signs followed by "key", the only occurrence of "key" starts at
byte 51 of the lowercased text, the context window start 51 - 50 = 1 is not a
character boundary of the page text, and the slice of the original content
panics (modelled as `POut.panic`). -/
theorem c10_context_slice_panics :
    process_page_content envTriv false html10 [keyBytes] [] 0 "u" = ([], 0, POut.panic) ∧
    rustMatchIndices (rustLower html10) (rustLower (rustTrim keyBytes)) = [51] ∧
    isCharBoundaryB html10 (51 - 50) = false := by
  refine ⟨by decide, by decide, by decide⟩
